import Mathlib

/-!
Verification of the Budget & Fund Ledger Engine of the `budget-app` backend.

The Python source (SQLAlchemy + async sessions) is shallowly embedded:
database tables become lists of row structures, `Decimal`/`float` amounts
become `ℚ` (the code only performs exact decimal arithmetic on the values
the claims are about), SQL queries become `filter`/`find?`/`foldl` over the
row lists, and mutating operations thread an explicit `DB` state and return
`Except String` for the `ValueError` paths.

Dates only ever enter the code through whole-month windows
(`[month_start, month_end]` at microsecond granularity) or comparisons of
first-of-month datetimes, so a transaction timestamp is embedded as its
(year, month) pair and datetime comparisons as lexicographic (year, month)
comparisons, which are equivalent on the ranges the code builds.
-/

namespace BudgetApp

/-- Row of the `budget` table (`models/budget.py`, class `Budget`). -/
structure BudgetRow where
  id : Nat
  name : String
  userId : Nat
  month : Nat
  year : Nat
  enable : Bool
  deleted : Bool
  deriving DecidableEq, Repr

/-- Row of the `income` table (`models/budget.py`, class `Income`). -/
structure IncomeRow where
  id : Nat
  fixed : Bool
  expectedAmount : ℚ
  minAmt : Option ℚ
  maxAmt : Option ℚ
  deriving DecidableEq, Repr

/-- Row of the `expense` table (`models/budget.py`, class `Expense`). -/
structure ExpenseRow where
  id : Nat
  fixed : Bool
  flexible : Bool
  expectedAmount : ℚ
  minAmt : Option ℚ
  maxAmt : Option ℚ
  deriving DecidableEq, Repr

/-- Row of the `fund` table (`models/budget.py`, class `Fund`). -/
structure FundRow where
  id : Nat
  priority : Int
  increment : ℚ
  monthAmount : ℚ
  maxAmt : Option ℚ
  masterFundId : Nat
  deriving DecidableEq, Repr

/-- Row of the `fund_masters` table (`models/budget.py`, class `FundMaster`). -/
structure FundMasterRow where
  id : Nat
  name : Option String
  totalAmount : ℚ
  deriving DecidableEq, Repr

/-- Row of the SimpleFin transaction table; `txYear`/`txMonth` are the
calendar month of `transacted_at` (see the header note on dates). -/
structure TxnRow where
  id : Nat
  budgetId : Option Nat
  amount : ℚ
  isSplit : Bool
  txYear : Nat
  txMonth : Nat
  deriving DecidableEq, Repr

/-- Row of the transaction line-item table. -/
structure LineItemRow where
  id : Nat
  parentTransactionId : Nat
  budgetId : Option Nat
  amount : ℚ
  deriving DecidableEq, Repr

/-- The database state.  `nextBudgetId` models the autoincrement sequence of
the `budget` table used by `insert(Budget).returning(Budget.id)`. -/
structure DB where
  budgets : List BudgetRow
  incomes : List IncomeRow
  expenses : List ExpenseRow
  funds : List FundRow
  masters : List FundMasterRow
  txns : List TxnRow
  lineItems : List LineItemRow
  nextBudgetId : Nat
  deriving DecidableEq, Repr

/-! ## §4.1 transaction-derived sums (`calculations_budget.py`) -/

/-- `get_budget_sum_with_line_items` (calculations_budget.py lines 19-45):
sum of non-split transactions assigned to the budget plus sum of all line
items assigned to the budget; no date filter.  SQL `sum(...) or 0.0` on an
empty set is the empty list sum. -/
def get_budget_sum_with_line_items (db : DB) (budgetId : Nat) : ℚ :=
  ((db.txns.filter (fun t => t.budgetId == some budgetId && !t.isSplit)).map
      (fun t => t.amount)).sum
    + ((db.lineItems.filter (fun li => li.budgetId == some budgetId)).map
      (fun li => li.amount)).sum

/-- Whether a transaction timestamp falls inside the whole-month window
`[datetime(y,m,1), datetime(y,m,last_day,23:59:59.999999)]`. -/
def inMonth (t : TxnRow) (month year : Nat) : Bool :=
  t.txMonth == month && t.txYear == year

/-- The month-filtered per-budget sum used for previous months inside
`get_carryover_for_budgets` (calculations_budget.py lines 200-241): non-split
transactions of the budget in the window, plus line items of the budget whose
parent transaction (joined on `parent_transaction_id`) is in the window. -/
def monthTxnSum (db : DB) (budgetId : Nat) (month year : Nat) : ℚ :=
  ((db.txns.filter (fun t =>
      t.budgetId == some budgetId && !t.isSplit && inMonth t month year)).map
      (fun t => t.amount)).sum
    + ((db.lineItems.filter (fun li =>
      li.budgetId == some budgetId
        && (match db.txns.find? (fun t => t.id == li.parentTransactionId) with
            | some t => inMonth t month year
            | none => false))).map (fun li => li.amount)).sum

/-! ## Master balance (`calculations_fund.py`) -/

/-- The funds fetched by `calculate_master_balance`: every `Fund` row whose
`master_fund_id` equals the given master id. -/
def fundsOfMaster (db : DB) (masterFundId : Nat) : List FundRow :=
  db.funds.filter (fun f => f.masterFundId == masterFundId)

/-- `calculate_master_balance` (calculations_fund.py lines 109-145), embedded
as the source's accumulation loop over the fetched funds. -/
def calculate_master_balance (db : DB) (masterFundId : Nat) : ℚ :=
  (fundsOfMaster db masterFundId).foldl
    (fun total fund => total + (fund.monthAmount + get_budget_sum_with_line_items db fund.id))
    0

/-- The three-way join at the top of `calculate_fund_balance`
(calculations_fund.py lines 41-56): the fund row, its master (inner join on
`master_fund_id`) and its budget row (inner join on `Budget.id == Fund.id`).
`first()` on a primary-key lookup is `find?`. -/
def fundJoin (db : DB) (fundId : Nat) :
    Option (FundRow × FundMasterRow × BudgetRow) :=
  match db.funds.find? (fun f => f.id == fundId) with
  | none => none
  | some f =>
    match db.masters.find? (fun m => m.id == f.masterFundId) with
    | none => none
    | some m =>
      match db.budgets.find? (fun b => b.id == f.id) with
      | none => none
      | some b => some (f, m, b)

/-- One entry of the `breakdown` list returned by `calculate_fund_balance`. -/
structure FundBreakdown where
  fund_id : Nat
  fund_name : String
  month : Nat
  year : Nat
  master_id : Nat
  master_balance : ℚ
  transactions : ℚ
  deriving DecidableEq, Repr

/-- The dictionary returned by `calculate_fund_balance`. -/
structure FundBalanceResult where
  total_balance : ℚ
  master_balance : ℚ
  transactions : ℚ
  breakdown : List FundBreakdown
  deriving DecidableEq, Repr

/-- `calculate_fund_balance` (calculations_fund.py lines 19-106).  When the
join finds no row it returns the all-zero result; otherwise the master
balance is recomputed, the transactions total is accumulated over all funds
sharing the master, and `total_balance` is set to the master balance. -/
def calculate_fund_balance (db : DB) (fundId : Nat) : FundBalanceResult :=
  match fundJoin db fundId with
  | none =>
    { total_balance := 0, master_balance := 0, transactions := 0, breakdown := [] }
  | some (f, _m, b) =>
    let masterBalance := calculate_master_balance db f.masterFundId
    let allFundIds := (fundsOfMaster db f.masterFundId).map (fun x => x.id)
    let totalTransactions :=
      allFundIds.foldl (fun acc fid => acc + get_budget_sum_with_line_items db fid) 0
    { total_balance := masterBalance
      master_balance := masterBalance
      transactions := totalTransactions
      breakdown := [{ fund_id := f.id
                      fund_name := b.name
                      month := b.month
                      year := b.year
                      master_id := f.masterFundId
                      master_balance := masterBalance
                      transactions := totalTransactions }] }

/-- The spec formula for the master balance, written from the claim text:
the sum over the linked fund rows of `month_amount + transaction_sum`, where
`transaction_sum` is the lifetime (unfiltered) per-budget sum. -/
def spec_master_balance (db : DB) (mid : Nat) : ℚ :=
  ((db.funds.filter (fun f => f.masterFundId == mid)).map
    (fun f => f.monthAmount + get_budget_sum_with_line_items db f.id)).sum

/-! ## Fund increment allocator (`calculations_fund_allocations.py`) -/

/-- One entry of the `applied_funds` list of `apply_fund_increments`. -/
structure AppliedFund where
  fund_id : Nat
  fund_name : String
  amount_added : ℚ
  new_master_balance : ℚ
  deriving DecidableEq, Repr

/-- One entry of the `skipped_funds` list of `apply_fund_increments`. -/
structure SkippedFund where
  fund_id : Nat
  fund_name : String
  reason : String
  deriving DecidableEq, Repr

/-- A row of the allocator's fetch at lines 85-103 of
`calculations_fund_allocations.py` (fund fields joined with the budget name). -/
structure FundSnapshot where
  id : Nat
  priority : Int
  increment : ℚ
  maxAmt : Option ℚ
  monthAmount : ℚ
  masterFundId : Nat
  name : String
  deriving DecidableEq, Repr

/-- The allocator's loop state: the threaded database plus the accumulators
`applied_funds`, `skipped_funds`, `total_applied` and `remaining_balance`. -/
structure ApplyState where
  db : DB
  applied : List AppliedFund
  skipped : List SkippedFund
  totalApplied : ℚ
  remaining : ℚ
  deriving DecidableEq, Repr

/-- The dictionary returned by `apply_fund_increments`. -/
structure ApplyResult where
  applied_funds : List AppliedFund
  skipped_funds : List SkippedFund
  balance_before : ℚ
  balance_after : ℚ
  total_applied : ℚ
  would_go_negative : Bool
  deriving DecidableEq, Repr

/-- `fund_obj.month_amount += amount_to_add` on the row with the given id. -/
def updateFundMonthAmount (db : DB) (fundId : Nat) (amt : ℚ) : DB :=
  { db with funds := db.funds.map (fun f =>
      if f.id == fundId then { f with monthAmount := f.monthAmount + amt } else f) }

/-- `master_obj.total_amount += amount_to_add` on the master with the given id. -/
def updateMasterTotal (db : DB) (mid : Nat) (amt : ℚ) : DB :=
  { db with masters := db.masters.map (fun m =>
      if m.id == mid then { m with totalAmount := m.totalAmount + amt } else m) }

/-- The cached `FundMaster.total_amount` of a master row. -/
def masterTotalAmount (db : DB) (mid : Nat) : ℚ :=
  match db.masters.find? (fun m => m.id == mid) with
  | some m => m.totalAmount
  | none => 0

/-- Lines 154-178 of `calculations_fund_allocations.py`: update the fund's
`month_amount` and the master's cached total, append the applied entry
(reading the master total back after the update), and update the running
accumulators. -/
def applyCommit (st : ApplyState) (fund : FundSnapshot) (amountToAdd : ℚ) : ApplyState :=
  let db1 := updateFundMonthAmount st.db fund.id amountToAdd
  let db2 := updateMasterTotal db1 fund.masterFundId amountToAdd
  { db := db2
    applied := st.applied ++ [{ fund_id := fund.id
                                fund_name := fund.name
                                amount_added := amountToAdd
                                new_master_balance := masterTotalAmount db2 fund.masterFundId }]
    skipped := st.skipped
    totalApplied := st.totalApplied + amountToAdd
    remaining := st.remaining - amountToAdd }

/-- Lines 141-152: the safe-mode clamp.  If safe mode is on and the running
balance minus the amount would go below zero, clamp to `max(0, remaining)`;
a zero clamped amount is skipped with reason "Insufficient balance (safe
mode)". -/
def applySafeCheck (safeMode : Bool) (st : ApplyState) (fund : FundSnapshot)
    (amountToAdd : ℚ) : ApplyState :=
  if safeMode && decide (st.remaining - amountToAdd < 0) then
    let clamped := max 0 st.remaining
    if clamped == 0 then
      { st with skipped := st.skipped
          ++ [{ fund_id := fund.id, fund_name := fund.name
                reason := "Insufficient balance (safe mode)" }] }
    else applyCommit st fund clamped
  else applyCommit st fund amountToAdd

/-- Lines 110-178: one iteration of the allocator loop.  Zero increments are
skipped; a fund with a `max` has its amount limited by the room left to the
max, measured against the recomputed master balance of the threaded state. -/
def applyStep (safeMode : Bool) (st : ApplyState) (fund : FundSnapshot) : ApplyState :=
  if fund.increment == 0 then
    { st with skipped := st.skipped
        ++ [{ fund_id := fund.id, fund_name := fund.name, reason := "Increment is 0" }] }
  else
    match fund.maxAmt with
    | none => applySafeCheck safeMode st fund fund.increment
    | some mx =>
      let currentBalance := (calculate_fund_balance st.db fund.id).master_balance
      let room := mx - currentBalance
      if room ≤ 0 then
        { st with skipped := st.skipped
            ++ [{ fund_id := fund.id, fund_name := fund.name
                  reason := "Fund has reached maximum" }] }
      else applySafeCheck safeMode st fund (min fund.increment room)

/-- The rows produced by the fetch at lines 85-103 before ordering: every
`Fund` row joined (on `Fund.id == Budget.id`) with an enabled budget of the
user for the month/year. -/
def monthFundSnapshots (db : DB) (userId month year : Nat) : List FundSnapshot :=
  db.funds.filterMap (fun f =>
    match db.budgets.find? (fun b => b.id == f.id) with
    | some b =>
      if b.userId == userId && b.month == month && b.year == year && b.enable then
        some { id := f.id, priority := f.priority, increment := f.increment
               maxAmt := f.maxAmt, monthAmount := f.monthAmount
               masterFundId := f.masterFundId, name := b.name }
      else none
    | none => none)

/-- The allocator's ordering `(priority ascending, id ascending)`. -/
def fundLe (f g : FundSnapshot) : Prop :=
  f.priority < g.priority ∨ (f.priority = g.priority ∧ f.id ≤ g.id)

instance : DecidableRel fundLe := fun f g => by unfold fundLe; infer_instance

instance : IsTotal FundSnapshot fundLe :=
  ⟨by intro a b; unfold fundLe; omega⟩

instance : IsTrans FundSnapshot fundLe :=
  ⟨by intro a b c; unfold fundLe; omega⟩

/-- The fetched rows in the `order_by(Fund.priority.asc(), Fund.id.asc())`
order. -/
def sortedMonthFunds (db : DB) (userId month year : Nat) : List FundSnapshot :=
  List.insertionSort fundLe (monthFundSnapshots db userId month year)

/-- The allocator loop of lines 105-189 run on a given fund list, starting
from a given balance. -/
def apply_fund_increments_core (safeMode : Bool) (db : DB) (balanceBefore : ℚ)
    (funds : List FundSnapshot) : ApplyResult :=
  let final := funds.foldl (applyStep safeMode)
    { db := db, applied := [], skipped := [], totalApplied := 0, remaining := balanceBefore }
  { applied_funds := final.applied
    skipped_funds := final.skipped
    balance_before := balanceBefore
    balance_after := final.remaining
    total_applied := final.totalApplied
    would_go_negative := decide (final.remaining < 0) }

/-- `apply_fund_increments` (calculations_fund_allocations.py lines 19-189).
The starting balance (`balance_before`, computed at lines 53-82 from the
`get_budgets` aggregates) is passed in as a parameter; the claims quantify
over it. -/
def apply_fund_increments (db : DB) (userId month year : Nat) (safeMode : Bool)
    (balanceBefore : ℚ) : ApplyResult :=
  apply_fund_increments_core safeMode db balanceBefore
    (sortedMonthFunds db userId month year)

/-- Concrete scenario for claim C2: one user, month 1/2025, two funds on one
master, priorities 1 and 2, each with increment 8, no max, no transactions. -/
def dbC2 : DB :=
  { budgets := [⟨1, "Fund A", 1, 1, 2025, true, false⟩,
                ⟨2, "Fund B", 1, 1, 2025, true, false⟩]
    incomes := []
    expenses := []
    funds := [⟨1, 1, 8, 0, none, 1⟩, ⟨2, 2, 8, 0, none, 1⟩]
    masters := [⟨1, none, 0⟩]
    txns := []
    lineItems := []
    nextBudgetId := 3 }

/-- Two allocator loop states drawn from databases that differ only in the
fetch order of their fund rows (the row multiset, and every other table, is
identical), with identical accumulators.  The id-nodup conjunct records the
fund table's primary key. -/
def StateRel (s1 s2 : ApplyState) : Prop :=
  s1.db.budgets = s2.db.budgets ∧ s1.db.funds.Perm s2.db.funds
    ∧ s1.db.masters = s2.db.masters ∧ s1.db.txns = s2.db.txns
    ∧ s1.db.lineItems = s2.db.lineItems
    ∧ (s1.db.funds.map (fun f => f.id)).Nodup
    ∧ s1.applied = s2.applied ∧ s1.skipped = s2.skipped
    ∧ s1.totalApplied = s2.totalApplied ∧ s1.remaining = s2.remaining

/-! ## Carryover (`calculations_budget.py`, `get_carryover_for_budgets`) -/

/-- `datetime(prevYear, prevMonth, 1) < datetime(year, month, 1)`:
lexicographic (year, month) comparison. -/
def monthBefore (prevYear prevMonth year month : Nat) : Bool :=
  decide (prevYear < year) || (prevYear == year && decide (prevMonth < month))

/-- The budgets of the user for the given month/year (lines 162-169). -/
def currentBudgets (db : DB) (userId month year : Nat) : List BudgetRow :=
  db.budgets.filter (fun b =>
    b.userId == userId && b.month == month && b.year == year)

/-- What one previous budget row adds to its name's carryover entry (lines
200-255): the row's month-filtered transaction sum is computed, then if a
`Fund` row with the budget's id exists the contribution is `-month_amount`
(the transaction sum is ignored), otherwise it is the transaction sum. -/
def carryContribution (db : DB) (b : BudgetRow) : ℚ :=
  let transactionSum := monthTxnSum db b.id b.month b.year
  match db.funds.find? (fun f => f.id == b.id) with
  | some f => -f.monthAmount
  | none => transactionSum

/-- `carryover_by_name[budget_name] += v` on an association-list dict. -/
def dictAdd (d : List (String × ℚ)) (k : String) (v : ℚ) : List (String × ℚ) :=
  d.map (fun p => if p.1 = k then (p.1, p.2 + v) else p)

/-- Dictionary lookup on the association list. -/
def dictLookup : List (String × ℚ) → String → Option ℚ
  | [], _ => none
  | p :: rest, k => if p.1 = k then some p.2 else dictLookup rest k

/-- `get_carryover_for_budgets` (calculations_budget.py lines 123-257),
returning the `{budget_name: amount}` dict as an association list keyed by
the (deduplicated) names of the current month's budgets. -/
def get_carryover_for_budgets (db : DB) (userId month year : Nat) :
    List (String × ℚ) :=
  let current := currentBudgets db userId month year
  if current.isEmpty then []
  else
    let names := (current.map (fun b => b.name)).dedup
    let prevs := db.budgets.filter (fun b =>
      b.userId == userId && names.contains b.name
        && monthBefore b.year b.month year month)
    if prevs.isEmpty then names.map (fun n => (n, 0))
    else
      prevs.foldl (fun d b => dictAdd d b.name (carryContribution db b))
        (names.map (fun n => (n, 0)))

/-- The claim's formula for one name's carryover: the sum over all strictly
earlier same-named budget rows of the same user of their contributions. -/
def spec_carryover (db : DB) (userId month year : Nat) (n : String) : ℚ :=
  ((db.budgets.filter (fun b =>
      b.userId == userId && b.name == n
        && monthBefore b.year b.month year month)).map (carryContribution db)).sum

/-- Concrete database witnessing C4: budget "Food" exists in 2/2025 and in
1/2025 (not a fund), with a -30 transaction in 1/2025. -/
def dbC4w : DB :=
  { budgets := [⟨1, "Food", 1, 1, 2025, true, false⟩,
                ⟨2, "Food", 1, 2, 2025, true, false⟩]
    incomes := [], expenses := [], funds := [], masters := []
    txns := [⟨1, some 1, -30, false, 2025, 1⟩]
    lineItems := [], nextBudgetId := 3 }

/-! ## Combine (`master_fund_operations.py`, `combine_fund_masters`) -/

/-- The dictionary returned by `combine_fund_masters`. -/
structure CombineInfo where
  target_master_id : Nat
  deleted_master_id : Nat
  combined_balance : ℚ
  funds_combined : Nat
  deriving DecidableEq, Repr

/-- `combine_fund_masters` (master_fund_operations.py lines 18-119): look up
both funds through the Fund-FundMaster-Budget join (`ValueError` when a fund
is missing or both funds share a master), add the source master's cached
total onto the target master, repoint every fund of the source master to the
target master, and delete the source master row. -/
def combine_fund_masters (db : DB) (sourceFundId targetFundId : Nat) :
    Except String (DB × CombineInfo) :=
  match fundJoin db sourceFundId with
  | none => Except.error "Source fund not found"
  | some (sf, sm, _sb) =>
    match fundJoin db targetFundId with
    | none => Except.error "Target fund not found"
    | some (tf, tm, _tb) =>
      if sf.masterFundId == tf.masterFundId then
        Except.error "Funds are already in the same master fund family"
      else
        let combinedBalance := tm.totalAmount + sm.totalAmount
        let db1 := updateMasterTotal db tf.masterFundId sm.totalAmount
        let fundsToUpdate := db1.funds.filter (fun f => f.masterFundId == sf.masterFundId)
        let db2 := { db1 with funds := db1.funds.map (fun (f : FundRow) =>
          if f.masterFundId == sf.masterFundId then
            { f with masterFundId := tf.masterFundId } else f) }
        let db3 :=
          { db2 with masters := db2.masters.filter (fun m => !(m.id == sf.masterFundId)) }
        Except.ok (db3,
          { target_master_id := tf.masterFundId
            deleted_master_id := sf.masterFundId
            combined_balance := combinedBalance
            funds_combined := fundsToUpdate.length })

/-- Concrete database witnessing C5: funds 1 and 2 sit on distinct masters
1 (balance 10) and 2 (balance 7). -/
def dbC5w : DB :=
  { budgets := [⟨1, "A", 1, 1, 2025, true, false⟩, ⟨2, "B", 1, 1, 2025, true, false⟩]
    incomes := [], expenses := []
    funds := [⟨1, 1, 0, 10, none, 1⟩, ⟨2, 1, 0, 7, none, 2⟩]
    masters := [⟨1, none, 10⟩, ⟨2, none, 7⟩]
    txns := [], lineItems := [], nextBudgetId := 3 }

/-! ## Month copy (`copy.py`, `copy_budgets_from_previous_month`) -/

/-- The per-type copy counts returned by the month copy. -/
structure CopyCounts where
  income : Nat
  expense : Nat
  flexible : Nat
  fund : Nat
  deriving DecidableEq, Repr

/-- One row of the source-month fetch (copy.py lines 67-98): the budget with
its outer-joined income/expense/fund sub-rows, taken before any insert. -/
structure CopyRow where
  budget : BudgetRow
  income : Option IncomeRow
  expense : Option ExpenseRow
  fund : Option FundRow
  deriving DecidableEq, Repr

/-- The source-month rows of the copy. -/
def copySnapshot (db : DB) (userId srcMonth srcYear : Nat) : List CopyRow :=
  (db.budgets.filter (fun b =>
      b.userId == userId && b.month == srcMonth && b.year == srcYear)).map
    (fun b =>
      { budget := b
        income := db.incomes.find? (fun i => i.id == b.id)
        expense := db.expenses.find? (fun e => e.id == b.id)
        fund := db.funds.find? (fun f => f.id == b.id) })

/-- Loop state of the copy: the threaded database and the counts. -/
structure CopyState where
  db : DB
  counts : CopyCounts
  deriving DecidableEq, Repr

/-- Copy.py lines 108-181: insert the new budget row for the target month
(fresh autoincrement id, same name/enable/deleted), then copy the income,
else expense, else fund sub-row.  The fund branch re-queries the source fund
row (joined with its master, which exists by the foreign key) for its
`master_fund_id`, and inserts the new fund with the snapshot's
priority/increment/max, `month_amount = 0`, and the same `master_fund_id`;
the unreachable missing-fund case leaves the state unchanged. -/
def copyStep (targetMonth targetYear userId : Nat) (st : CopyState)
    (row : CopyRow) : CopyState :=
  let newId := st.db.nextBudgetId
  let db1 := { st.db with
    budgets := st.db.budgets
      ++ [{ id := newId, name := row.budget.name, userId := userId
            month := targetMonth, year := targetYear
            enable := row.budget.enable, deleted := row.budget.deleted }]
    nextBudgetId := newId + 1 }
  match row.income with
  | some i =>
    { db := { db1 with incomes := db1.incomes ++ [{ i with id := newId }] }
      counts := { st.counts with income := st.counts.income + 1 } }
  | none =>
    match row.expense with
    | some e =>
      { db := { db1 with expenses := db1.expenses ++ [{ e with id := newId }] }
        counts :=
          if e.flexible then { st.counts with flexible := st.counts.flexible + 1 }
          else { st.counts with expense := st.counts.expense + 1 } }
    | none =>
      match row.fund with
      | some fsnap =>
        match db1.funds.find? (fun f => f.id == fsnap.id) with
        | some prevFund =>
          { db := { db1 with funds := db1.funds
              ++ [{ id := newId, priority := fsnap.priority
                    increment := fsnap.increment, monthAmount := 0
                    maxAmt := fsnap.maxAmt
                    masterFundId := prevFund.masterFundId }] }
            counts := { st.counts with fund := st.counts.fund + 1 } }
        | none => { db := db1, counts := st.counts }
      | none => { db := db1, counts := st.counts }

/-- `copy_budgets_from_previous_month` (copy.py lines 12-191) with an
explicit source month/year (the Python defaulting at lines 39-46 only fills
absent arguments).  Raising a `ValueError` before any insert is modelled by
returning `Except.error` with the original database untouched. -/
def copy_budgets_from_previous_month (db : DB)
    (userId targetMonth targetYear srcMonth srcYear : Nat) :
    Except String (DB × CopyCounts) :=
  if !(db.budgets.filter (fun b =>
      b.userId == userId && b.month == targetMonth
        && b.year == targetYear)).isEmpty then
    Except.error "Target month already has budgets"
  else if (copySnapshot db userId srcMonth srcYear).isEmpty then
    Except.error "No budgets found in previous month"
  else
    Except.ok
      (((copySnapshot db userId srcMonth srcYear).foldl
          (copyStep targetMonth targetYear userId)
          { db := db
            counts := { income := 0, expense := 0, flexible := 0, fund := 0 } }).db,
        ((copySnapshot db userId srcMonth srcYear).foldl
          (copyStep targetMonth targetYear userId)
          { db := db
            counts := { income := 0, expense := 0, flexible := 0, fund := 0 } }).counts)

/-- Concrete database witnessing C6: the source month 1/2025 holds the fund
budget "Savings" (priority 2, increment 50, month_amount 5, master 1); the
target month 2/2025 is empty. -/
def dbC6w : DB :=
  { budgets := [⟨1, "Savings", 1, 1, 2025, true, false⟩]
    incomes := [], expenses := []
    funds := [⟨1, 2, 50, 5, none, 1⟩]
    masters := [⟨1, none, 5⟩]
    txns := [], lineItems := [], nextBudgetId := 2 }

/-- The database produced by copying `dbC6w` from 1/2025 into 2/2025. -/
def dbC6res : DB :=
  { budgets := [⟨1, "Savings", 1, 1, 2025, true, false⟩,
                ⟨2, "Savings", 1, 2, 2025, true, false⟩]
    incomes := [], expenses := []
    funds := [⟨1, 2, 50, 5, none, 1⟩, ⟨2, 2, 50, 0, none, 1⟩]
    masters := [⟨1, none, 5⟩]
    txns := [], lineItems := [], nextBudgetId := 3 }

/-- Concrete database for claim C7: the target month 2/2025 already has a
budget and the source month 1/2025 is empty. -/
def dbC7 : DB :=
  { budgets := [⟨1, "X", 1, 2, 2025, true, false⟩]
    incomes := [], expenses := [], funds := [], masters := []
    txns := [], lineItems := [], nextBudgetId := 2 }

/-! ## Orphaned masters (`master_fund_orphaned.py`) -/

/-- The budget rows of the funds linked to a master (the Fund-Budget join
used by the `last_fund` and existence queries). -/
def masterBudgets (db : DB) (mid : Nat) : List BudgetRow :=
  db.funds.filterMap (fun f =>
    if f.masterFundId == mid then db.budgets.find? (fun b => b.id == f.id)
    else none)

/-- `a` is strictly later than `b` in the `(year desc, month desc)` order. -/
def laterThan (a b : BudgetRow) : Bool :=
  decide (b.year < a.year) || (decide (a.year = b.year) && decide (b.month < a.month))

/-- Keep the later of the accumulated row and the next row. -/
def lastStep (acc : Option BudgetRow) (b : BudgetRow) : Option BudgetRow :=
  match acc with
  | none => some b
  | some cur => if laterThan b cur then some b else some cur

/-- The `order_by(Budget.year.desc(), Budget.month.desc()).limit(1)` fetch:
a latest (year, month) budget row among the master's funds (the first fetched
row is kept on ties, which SQL leaves unspecified). -/
def lastFundOfMaster (db : DB) (mid : Nat) : Option BudgetRow :=
  (masterBudgets db mid).foldl lastStep none

/-- Whether a fund of the master exists for the month/year (the
`existing_fund_query` / `fund_exists_query` pattern). -/
def hasFundInMonth (db : DB) (mid month year : Nat) : Bool :=
  db.funds.any (fun f =>
    f.masterFundId == mid
      && (match db.budgets.find? (fun b => b.id == f.id) with
          | some b => b.month == month && b.year == year
          | none => false))

/-- Whether the master is joined to at least one fund whose budget belongs
to the user (the join of `masters_query`, lines 43-55). -/
def masterHasUserFund (db : DB) (userId mid : Nat) : Bool :=
  db.funds.any (fun f =>
    f.masterFundId == mid
      && (match db.budgets.find? (fun b => b.id == f.id) with
          | some b => b.userId == userId
          | none => false))

/-- One entry of the orphan query result. -/
structure OrphanInfo where
  master_id : Nat
  name : String
  balance : ℚ
  last_active_month : Option Nat
  last_active_year : Option Nat
  last_fund_name : Option String
  deriving DecidableEq, Repr

/-- `get_orphaned_fund_masters` (master_fund_orphaned.py lines 19-98):
masters of the user's funds with cached `total_amount > 0` (`distinct` over
the join is the filter over the unique master rows); those without a fund in
the month are reported with the cached balance and the last active fund's
name/month/year.  Python's falsy `or` drops an empty-string master name. -/
def get_orphaned_fund_masters (db : DB) (userId month year : Nat) :
    List OrphanInfo :=
  (db.masters.filter (fun m =>
      decide (0 < m.totalAmount) && masterHasUserFund db userId m.id)).filterMap
    (fun m =>
      if hasFundInMonth db m.id month year then none
      else
        let lastFund := lastFundOfMaster db m.id
        let fallback := match lastFund with
                        | some b => b.name
                        | none => "Unknown"
        some { master_id := m.id
               name := match m.name with
                       | some s => if s == "" then fallback else s
                       | none => fallback
               balance := m.totalAmount
               last_active_month := lastFund.map (fun b => b.month)
               last_active_year := lastFund.map (fun b => b.year)
               last_fund_name := lastFund.map (fun b => b.name) })

/-- Concrete database for claim C8: master 1 has cached (and recomputed)
balance -5 and its only fund is in month 1/2025. -/
def dbC8 : DB :=
  { budgets := [⟨1, "Vacation", 1, 1, 2025, true, false⟩]
    incomes := [], expenses := []
    funds := [⟨1, 1, 0, -5, none, 1⟩]
    masters := [⟨1, none, -5⟩]
    txns := [], lineItems := [], nextBudgetId := 2 }

/-- Concrete database witnessing the amended C8: master 1 has cached
balance 5 and its only fund is in month 1/2025. -/
def dbC8w : DB :=
  { budgets := [⟨1, "Vacation", 1, 1, 2025, true, false⟩]
    incomes := [], expenses := []
    funds := [⟨1, 1, 0, 5, none, 1⟩]
    masters := [⟨1, none, 5⟩]
    txns := [], lineItems := [], nextBudgetId := 2 }

/-- The dictionary returned by `discontinue_fund_master`. -/
structure DiscontinueInfo where
  master_id : Nat
  budget_id : Nat
  withdrawal_amount : ℚ
  month : Nat
  year : Nat
  deriving DecidableEq, Repr

/-- `discontinue_fund_master` (master_fund_orphaned.py lines 101-197):
require the master to exist and to have no fund for the month; create a
budget (name of the last active fund, with Python's falsy `or` fallback)
and a fund with `priority = 999`, zero increment and
`month_amount = -master.total_amount`; zero the master's cached balance. -/
def discontinue_fund_master (db : DB) (masterFundId month year userId : Nat) :
    Except String (DB × DiscontinueInfo) :=
  match db.masters.find? (fun m => m.id == masterFundId) with
  | none => Except.error "Master fund not found"
  | some master =>
    if hasFundInMonth db masterFundId month year then
      Except.error "Fund already exists for master in this month"
    else
      let lastName := match lastFundOfMaster db masterFundId with
                      | some b => if b.name == "" then "Discontinued Fund" else b.name
                      | none => "Discontinued Fund"
      let budgetId := db.nextBudgetId
      let withdrawal := -master.totalAmount
      let db1 := { db with
        budgets := db.budgets
          ++ [{ id := budgetId, name := lastName, userId := userId
                month := month, year := year, enable := true, deleted := false }]
        funds := db.funds
          ++ [{ id := budgetId, priority := 999, increment := 0
                monthAmount := withdrawal, maxAmt := none
                masterFundId := masterFundId }]
        masters := db.masters.map (fun m =>
          if m.id == masterFundId then { m with totalAmount := 0 } else m)
        nextBudgetId := budgetId + 1 }
      Except.ok (db1,
        { master_id := masterFundId, budget_id := budgetId
          withdrawal_amount := withdrawal, month := month, year := year })

/-- Concrete database for claim C9: master 1 (balance 5) was last active in
1/2025; an unrelated fund of master 2 sits in 2/2025 with priority 1000. -/
def dbC9 : DB :=
  { budgets := [⟨1, "Trip", 1, 1, 2025, true, false⟩,
                ⟨2, "Other", 1, 2, 2025, true, false⟩]
    incomes := [], expenses := []
    funds := [⟨1, 1, 0, 5, none, 1⟩, ⟨2, 1000, 1, 0, none, 2⟩]
    masters := [⟨1, none, 5⟩, ⟨2, none, 0⟩]
    txns := [], lineItems := [], nextBudgetId := 3 }

/-! ## Generic list helpers -/

/-- An `acc + g x` fold is the sum of the mapped list. -/
theorem foldl_add_eq_sum {α : Type} (g : α → ℚ) (l : List α) (a : ℚ) :
    l.foldl (fun acc x => acc + g x) a = a + (l.map g).sum := by
  induction l generalizing a with
  | nil => simp
  | cons x xs ih => simp [List.foldl_cons, ih (a + g x), add_assoc]

/-- `calculate_master_balance` as a mapped sum (used by several proofs). -/
theorem masterBalance_eq_sum (db : DB) (mid : Nat) :
    calculate_master_balance db mid
      = ((fundsOfMaster db mid).map
          (fun f => f.monthAmount + get_budget_sum_with_line_items db f.id)).sum := by
  unfold calculate_master_balance
  rw [foldl_add_eq_sum]
  simp

/-! ## Claim C1 -/

/-- C1: `calculate_master_balance(m)` sums `month_amount + transaction_sum`
over exactly the `Fund` rows linked to master `m`, with no month filter on
the transaction sums. -/
theorem c1_master_balance_formula (db : DB) (mid : Nat) :
    calculate_master_balance db mid = spec_master_balance db mid
      ∧ ∀ f : FundRow, f ∈ fundsOfMaster db mid ↔ f ∈ db.funds ∧ f.masterFundId = mid := by
  constructor
  · rw [masterBalance_eq_sum]; rfl
  · intro f
    simp [fundsOfMaster, List.mem_filter]

/-! ## Claim C10 -/

/-- C10: for a fund id whose join finds no row, `calculate_fund_balance`
returns the all-zero result instead of raising; and `total_balance` always
equals `master_balance`. -/
theorem c10_fund_balance_missing_and_total (db : DB) (fundId : Nat) :
    (calculate_fund_balance db fundId).total_balance
        = (calculate_fund_balance db fundId).master_balance
      ∧ (fundJoin db fundId = none →
        calculate_fund_balance db fundId
          = { total_balance := 0, master_balance := 0, transactions := 0, breakdown := [] }) := by
  constructor
  · unfold calculate_fund_balance
    cases h : fundJoin db fundId with
    | none => rfl
    | some x => obtain ⟨f, m', b⟩ := x; rfl
  · intro h
    unfold calculate_fund_balance
    rw [h]

/-- Witness for C10 at a concrete empty database, where the join is `none`. -/
theorem c10_witness :
    calculate_fund_balance ⟨[], [], [], [], [], [], [], 1⟩ 7
      = { total_balance := 0, master_balance := 0, transactions := 0, breakdown := [] } :=
  (c10_fund_balance_missing_and_total ⟨[], [], [], [], [], [], [], 1⟩ 7).2 (by rfl)

/-! ## Claim C2 -/

/-- C2: in safe mode the allocator clamps an amount that would drive the
running balance negative to `max(0, remaining)` and skips the fund with
reason "Insufficient balance (safe mode)" when the clamped amount is 0;
concretely, with `balance_before = 10` and two funds each wanting 8, safe
mode applies 8 then 2 with `would_go_negative = false`, while without safe
mode both get 8, the final balance is -6 and `would_go_negative = true`. -/
theorem c2_safe_mode (st : ApplyState) (f : FundSnapshot) (a : ℚ)
    (h : st.remaining - a < 0) :
    ((0 < st.remaining →
        applySafeCheck true st f a = applyCommit st f (max 0 st.remaining))
      ∧ (st.remaining ≤ 0 →
        applySafeCheck true st f a
          = { st with skipped := st.skipped
              ++ [{ fund_id := f.id, fund_name := f.name
                    reason := "Insufficient balance (safe mode)" }] }))
    ∧ (apply_fund_increments dbC2 1 1 2025 true 10).applied_funds.map
        (fun x => (x.fund_id, x.amount_added)) = [(1, 8), (2, 2)]
    ∧ (apply_fund_increments dbC2 1 1 2025 true 10).would_go_negative = false
    ∧ (apply_fund_increments dbC2 1 1 2025 false 10).applied_funds.map
        (fun x => (x.fund_id, x.amount_added)) = [(1, 8), (2, 8)]
    ∧ (apply_fund_increments dbC2 1 1 2025 false 10).balance_after = -6
    ∧ (apply_fund_increments dbC2 1 1 2025 false 10).would_go_negative = true := by
  refine ⟨⟨?_, ?_⟩, by with_unfolding_all decide, by with_unfolding_all decide,
    by with_unfolding_all decide, by with_unfolding_all decide, by with_unfolding_all decide⟩
  · intro hpos
    simp [applySafeCheck, h, max_eq_right hpos.le, hpos.ne']
  · intro hle
    simp [applySafeCheck, h, max_eq_left hle]

/-- Witness for C2 at concrete inputs: remaining balance 2, requested 8. -/
theorem c2_witness :
    applySafeCheck true
        { db := dbC2, applied := [], skipped := [], totalApplied := 0, remaining := 2 }
        ⟨9, 1, 8, none, 0, 1, "W"⟩ 8
      = applyCommit
        { db := dbC2, applied := [], skipped := [], totalApplied := 0, remaining := 2 }
        ⟨9, 1, 8, none, 0, 1, "W"⟩ (max 0 2) :=
  ((c2_safe_mode
      { db := dbC2, applied := [], skipped := [], totalApplied := 0, remaining := 2 }
      ⟨9, 1, 8, none, 0, 1, "W"⟩ 8 (by norm_num)).1).1 (by norm_num)

/-! ## Claim C7 -/

/-- C7 counterexample: when the target month is non-empty and the source
month is empty, the copy fails with the Conflict ("already has budgets")
error, not the Not-found ("no budgets found") error the claim requires
("regardless of whether the target month is empty"). -/
theorem c7_counterexample :
    copy_budgets_from_previous_month dbC7 1 2 2025 1 2025
        = Except.error "Target month already has budgets"
      ∧ (copySnapshot dbC7 1 1 2025).isEmpty = true := by
  constructor
  · rfl
  · rfl

/-- C7 (amended): copy into a month that already has budgets for the user
always fails with the Conflict error, regardless of the source; copy from an
empty source month fails with the Not-found error provided the target month
is empty (the Conflict check runs first).  In both cases the operation
errors out before creating any row (the model returns no new database). -/
theorem c7_copy_guards (db : DB) (uid tm ty sm sy : Nat) :
    ((db.budgets.filter (fun b =>
        b.userId == uid && b.month == tm && b.year == ty)).isEmpty = false →
      copy_budgets_from_previous_month db uid tm ty sm sy
        = Except.error "Target month already has budgets")
    ∧ ((db.budgets.filter (fun b =>
        b.userId == uid && b.month == tm && b.year == ty)).isEmpty = true →
      (copySnapshot db uid sm sy).isEmpty = true →
      copy_budgets_from_previous_month db uid tm ty sm sy
        = Except.error "No budgets found in previous month") := by
  constructor
  · intro h
    simp [copy_budgets_from_previous_month, h]
  · intro h1 h2
    simp [copy_budgets_from_previous_month, h1, h2]

/-- Witness for C7 at the concrete database of the counterexample. -/
theorem c7_witness :
    copy_budgets_from_previous_month dbC7 1 2 2025 1 2025
      = Except.error "Target month already has budgets" :=
  (c7_copy_guards dbC7 1 2 2025 1 2025).1 (by decide)

/-! ## Claim C9 -/

/-- C9 counterexample: discontinuing master 1 into 2/2025 creates the new
fund with priority 999, but an existing fund of that month has priority
1000, so the created fund (budget id 3) sorts first, not last, in the
allocation order — the created priority is the constant 999, not "the lowest
priority". -/
theorem c9_counterexample :
    (discontinue_fund_master dbC9 1 2 2025 1).toOption.map
        (fun p => (sortedMonthFunds p.1 1 2 2025).map (fun f => f.id)) = some [3, 2]
      ∧ (discontinue_fund_master dbC9 1 2 2025 1).toOption.map
        (fun p => p.2.budget_id) = some 3 := by
  constructor
  · with_unfolding_all decide
  · with_unfolding_all decide

/-- C9 (amended): under the preconditions (master exists, no fund of the
master in the month), `discontinue_fund_master` creates a Budget+Fund row
for the month whose `month_amount` is the negative of the master's cached
balance, with the fixed priority 999 (a low-priority sentinel that sorts
last only among funds of priority below 999), zeroes the master's cached
balance, and returns a withdrawal amount equal to the negative of the
master's balance before the operation. -/
theorem c9_discontinue (db : DB) (mid month year uid : Nat)
    (master : FundMasterRow)
    (hm : db.masters.find? (fun m => m.id == mid) = some master)
    (hnf : hasFundInMonth db mid month year = false) :
    ∃ db' info, discontinue_fund_master db mid month year uid = Except.ok (db', info)
      ∧ info.withdrawal_amount = -master.totalAmount
      ∧ info.budget_id = db.nextBudgetId
      ∧ (∃ nm, (⟨db.nextBudgetId, nm, uid, month, year, true, false⟩ : BudgetRow)
          ∈ db'.budgets)
      ∧ (⟨db.nextBudgetId, 999, 0, -master.totalAmount, none, mid⟩ : FundRow)
          ∈ db'.funds
      ∧ (∀ m ∈ db'.masters, m.id = mid → m.totalAmount = 0) := by
  simp only [discontinue_fund_master, hm, hnf, Bool.false_eq_true, if_false]
  refine ⟨_, _, rfl, rfl, rfl, ?_, ?_, ?_⟩
  · exact ⟨_, List.mem_append_right _ (List.mem_singleton.mpr rfl)⟩
  · simp
  · intro m hmem hid
    simp only [List.mem_map] at hmem
    obtain ⟨m0, _, hm0⟩ := hmem
    by_cases h0 : (m0.id == mid) = true
    · rw [if_pos h0] at hm0
      rw [← hm0]
    · rw [if_neg (by simp [h0])] at hm0
      subst hm0
      exact absurd hid (by simpa using h0)

/-- Witness for C9 at the concrete database of the counterexample. -/
theorem c9_witness :
    (discontinue_fund_master dbC9 1 2 2025 1).toOption.map
      (fun p => p.2.withdrawal_amount) = some (-5) := by
  obtain ⟨db', info, hok, hw, -⟩ :=
    c9_discontinue dbC9 1 2 2025 1 ⟨1, none, 5⟩ (by decide) (by decide)
  rw [hok]
  show some info.withdrawal_amount = some (-5)
  rw [hw]

/-! ## Claim C8 -/

/-- `laterThan` is irreflexive. -/
theorem laterThan_irrefl (a : BudgetRow) : laterThan a a = false := by
  rw [Bool.eq_false_iff]
  intro hcon
  simp only [ne_eq, laterThan, Bool.or_eq_true, Bool.and_eq_true, decide_eq_true_eq]
    at hcon
  omega

/-- `laterThan` is asymmetric. -/
theorem laterThan_asymm (a b : BudgetRow) (h : laterThan a b = true) :
    laterThan b a = false := by
  rw [Bool.eq_false_iff]
  intro hcon
  simp only [ne_eq, laterThan, Bool.or_eq_true, Bool.and_eq_true, decide_eq_true_eq]
    at h hcon
  omega

/-- "Not strictly later" is transitive. -/
theorem notAfter_trans (a b c : BudgetRow) (h1 : laterThan a b = false)
    (h2 : laterThan b c = false) : laterThan a c = false := by
  rw [Bool.eq_false_iff] at h1 h2 ⊢
  intro hcon
  simp only [ne_eq, laterThan, Bool.or_eq_true, Bool.and_eq_true, decide_eq_true_eq]
    at h1 h2 hcon
  omega

/-- The `lastStep` fold started at `some c` returns a row among `c` and the
list that no row of the list (nor `c`) is strictly later than. -/
theorem lastFold_spec (l : List BudgetRow) (c : BudgetRow) :
    ∃ r, l.foldl lastStep (some c) = some r ∧ (r = c ∨ r ∈ l)
      ∧ laterThan c r = false ∧ ∀ x ∈ l, laterThan x r = false := by
  induction l generalizing c with
  | nil => exact ⟨c, rfl, Or.inl rfl, laterThan_irrefl c, by simp⟩
  | cons b t ih =>
    by_cases hb : laterThan b c = true
    · obtain ⟨r, hr, hmem, hbr, hall⟩ := ih b
      refine ⟨r, ?_, ?_, ?_, ?_⟩
      · simpa [List.foldl_cons, lastStep, hb] using hr
      · rcases hmem with h | h
        · exact Or.inr (h ▸ List.mem_cons_self b t)
        · exact Or.inr (List.mem_cons_of_mem b h)
      · exact notAfter_trans c b r (laterThan_asymm b c hb) hbr
      · intro x hx
        rcases List.mem_cons.mp hx with h | h
        · exact h ▸ hbr
        · exact hall x h
    · have hb' : laterThan b c = false := by
        revert hb; cases laterThan b c <;> simp
      obtain ⟨r, hr, hmem, hcr, hall⟩ := ih c
      refine ⟨r, ?_, ?_, hcr, ?_⟩
      · simpa [List.foldl_cons, lastStep, hb'] using hr
      · rcases hmem with h | h
        · exact Or.inl h
        · exact Or.inr (List.mem_cons_of_mem b h)
      · intro x hx
        rcases List.mem_cons.mp hx with h | h
        · exact h ▸ notAfter_trans b c r hb' hcr
        · exact hall x h

/-- When the master has any joined budget row, the last-fund query returns a
row of the join that no row of the join is strictly later than. -/
theorem lastFundOfMaster_spec (db : DB) (mid : Nat)
    (hne : masterBudgets db mid ≠ []) :
    ∃ r, lastFundOfMaster db mid = some r ∧ r ∈ masterBudgets db mid
      ∧ ∀ x ∈ masterBudgets db mid, laterThan x r = false := by
  unfold lastFundOfMaster
  cases h : masterBudgets db mid with
  | nil => exact absurd h hne
  | cons c t =>
    obtain ⟨r, hr, hmem, hcr, hall⟩ := lastFold_spec t c
    refine ⟨r, ?_, ?_, ?_⟩
    · simpa [List.foldl_cons, lastStep] using hr
    · rcases hmem with hh | hh
      · exact hh ▸ List.mem_cons_self c t
      · exact List.mem_cons_of_mem c hh
    · intro x hx
      rcases List.mem_cons.mp hx with hh | hh
      · exact hh ▸ hcr
      · exact hall x hh

/-- A master joined to a fund whose budget belongs to the user has a
non-empty Fund-Budget join. -/
theorem masterBudgets_ne_nil_of_userFund (db : DB) (uid mid : Nat)
    (h : masterHasUserFund db uid mid = true) : masterBudgets db mid ≠ [] := by
  unfold masterHasUserFund at h
  rw [List.any_eq_true] at h
  obtain ⟨f, hf, hcond⟩ := h
  rw [Bool.and_eq_true] at hcond
  obtain ⟨hmid, hb⟩ := hcond
  cases hfind : db.budgets.find? (fun b => b.id == f.id) with
  | none => rw [hfind] at hb; simp at hb
  | some b =>
    intro hnil
    have hmem : b ∈ masterBudgets db mid := by
      unfold masterBudgets
      rw [List.mem_filterMap]
      exact ⟨f, hf, by rw [if_pos hmid, hfind]⟩
    rw [hnil] at hmem
    exact absurd hmem (List.not_mem_nil b)

/-- C8 counterexample: master 1 of `dbC8` has recomputed balance -5 (which
is non-zero) and no fund in 2/2025, so the claim requires it to be reported
as orphaned; the code filters on the cached `total_amount > 0` and returns
nothing. -/
theorem c8_counterexample :
    calculate_master_balance dbC8 1 ≠ 0
      ∧ hasFundInMonth dbC8 1 2 2025 = false
      ∧ masterHasUserFund dbC8 1 1 = true
      ∧ get_orphaned_fund_masters dbC8 1 2 2025 = [] := by
  refine ⟨?_, ?_, ?_, ?_⟩
  · with_unfolding_all decide
  · with_unfolding_all decide
  · with_unfolding_all decide
  · with_unfolding_all decide

/-- C8 (amended): `get_orphaned_masters(user, month, year)` returns exactly
those masters, among the ones linked to at least one fund whose budget
belongs to the user, whose cached `total_amount` is strictly positive and
that have no Fund row for the given month/year; for each it reports the
cached balance and the latest (year, month) budget row of the master's funds
as the last active month/year and last fund name. -/
theorem c8_orphan_query (db : DB) (uid month year : Nat) :
    (∀ mid : Nat,
      (∃ o ∈ get_orphaned_fund_masters db uid month year, o.master_id = mid)
        ↔ ∃ m ∈ db.masters, m.id = mid ∧ 0 < m.totalAmount
            ∧ masterHasUserFund db uid mid = true
            ∧ hasFundInMonth db mid month year = false)
    ∧ ∀ o ∈ get_orphaned_fund_masters db uid month year,
        (∃ m ∈ db.masters, m.id = o.master_id ∧ o.balance = m.totalAmount)
        ∧ ∃ r, lastFundOfMaster db o.master_id = some r
            ∧ r ∈ masterBudgets db o.master_id
            ∧ (∀ x ∈ masterBudgets db o.master_id, laterThan x r = false)
            ∧ o.last_active_month = some r.month
            ∧ o.last_active_year = some r.year
            ∧ o.last_fund_name = some r.name := by
  constructor
  · intro mid
    constructor
    · rintro ⟨o, ho, rfl⟩
      unfold get_orphaned_fund_masters at ho
      rw [List.mem_filterMap] at ho
      obtain ⟨m, hm, hg⟩ := ho
      rw [List.mem_filter] at hm
      obtain ⟨hmem, hp⟩ := hm
      rw [Bool.and_eq_true, decide_eq_true_eq] at hp
      by_cases hf : hasFundInMonth db m.id month year = true
      · rw [if_pos hf] at hg; exact absurd hg (by simp)
      · have hf' : hasFundInMonth db m.id month year = false := by
          revert hf; cases hasFundInMonth db m.id month year <;> simp
        rw [if_neg hf] at hg
        simp only [Option.some_inj] at hg
        subst hg
        exact ⟨m, hmem, rfl, hp.1, hp.2, hf'⟩
    · rintro ⟨m, hmem, rfl, hpos, huf, hnf⟩
      refine ⟨{ master_id := m.id
                name := match m.name with
                        | some s => if s == "" then
                            (match lastFundOfMaster db m.id with
                             | some b => b.name
                             | none => "Unknown") else s
                        | none => match lastFundOfMaster db m.id with
                                  | some b => b.name
                                  | none => "Unknown"
                balance := m.totalAmount
                last_active_month := (lastFundOfMaster db m.id).map (fun b => b.month)
                last_active_year := (lastFundOfMaster db m.id).map (fun b => b.year)
                last_fund_name := (lastFundOfMaster db m.id).map (fun b => b.name) },
              ?_, rfl⟩
      unfold get_orphaned_fund_masters
      rw [List.mem_filterMap]
      refine ⟨m, List.mem_filter.mpr ⟨hmem, ?_⟩, ?_⟩
      · rw [Bool.and_eq_true, decide_eq_true_eq]
        exact ⟨hpos, huf⟩
      · rw [if_neg (by simp [hnf])]
  · intro o ho
    unfold get_orphaned_fund_masters at ho
    rw [List.mem_filterMap] at ho
    obtain ⟨m, hm, hg⟩ := ho
    rw [List.mem_filter] at hm
    obtain ⟨hmem, hp⟩ := hm
    rw [Bool.and_eq_true, decide_eq_true_eq] at hp
    by_cases hf : hasFundInMonth db m.id month year = true
    · rw [if_pos hf] at hg; exact absurd hg (by simp)
    · rw [if_neg hf] at hg
      simp only [Option.some_inj] at hg
      subst hg
      obtain ⟨r, hr, hrm, hrmax⟩ :=
        lastFundOfMaster_spec db m.id
          (masterBudgets_ne_nil_of_userFund db uid m.id hp.2)
      exact ⟨⟨m, hmem, rfl, rfl⟩, r, hr, hrm, hrmax, by simp [hr], by simp [hr],
        by simp [hr]⟩

set_option maxRecDepth 10000 in
/-- Witness for C8: in `dbC8w` master 1 (cached balance 5, last fund in
1/2025) is orphaned for 2/2025, and the characterization recovers it. -/
theorem c8_witness :
    ∃ m ∈ dbC8w.masters, m.id = 1 ∧ 0 < m.totalAmount
      ∧ masterHasUserFund dbC8w 1 1 = true
      ∧ hasFundInMonth dbC8w 1 2 2025 = false :=
  ((c8_orphan_query dbC8w 1 2 2025).1 1).mp
    ⟨⟨1, "Vacation", 5, some 1, some 2025, some "Vacation"⟩,
      by with_unfolding_all decide, rfl⟩

/-! ## Claim C4 -/

/-- Looking a key up after a dict update. -/
theorem dictLookup_dictAdd (d : List (String × ℚ)) (k n : String) (v : ℚ) :
    dictLookup (dictAdd d k v) n
      = if n = k then (dictLookup d n).map (fun x => x + v)
        else dictLookup d n := by
  induction d with
  | nil =>
    simp [dictAdd, dictLookup]
  | cons p rest ih =>
    simp only [dictAdd, List.map_cons]
    simp only [dictAdd] at ih
    by_cases hk : p.1 = k
    · rw [if_pos hk]
      by_cases hn : p.1 = n
      · have e3 : n = k := hn ▸ hk
        simp [dictLookup, hn, e3]
      · have e3 : ¬ n = k := fun h => hn (hk.trans h.symm)
        simp [dictLookup, hn, e3, ih]
    · rw [if_neg hk]
      by_cases hn : p.1 = n
      · have e3 : ¬ n = k := fun h => hk (hn.trans h)
        simp [dictLookup, hn, e3]
      · simp [dictLookup, hn, ih]

/-- Looking a name up after folding all previous-budget contributions into
the dict adds exactly the same-named contributions. -/
theorem dictLookup_foldAdd (db : DB) (l : List BudgetRow)
    (d0 : List (String × ℚ)) (n : String) :
    dictLookup (l.foldl (fun d b => dictAdd d b.name (carryContribution db b)) d0) n
      = (dictLookup d0 n).map (fun x =>
          x + ((l.filter (fun b => b.name == n)).map (carryContribution db)).sum) := by
  induction l generalizing d0 with
  | nil => cases h : dictLookup d0 n <;> simp [h]
  | cons b rest ih =>
    rw [List.foldl_cons, ih, dictLookup_dictAdd]
    by_cases hn : n = b.name
    · rw [if_pos hn]
      have hfb : (b.name == n) = true := by simp [hn]
      simp only [List.filter_cons, hfb, if_true, List.map_cons, List.sum_cons]
      cases dictLookup d0 n <;> simp [add_assoc]
    · rw [if_neg hn]
      have hfb : (b.name == n) = false := by simp; exact fun h => hn h.symm
      simp only [List.filter_cons, hfb, Bool.false_eq_true, if_false]

/-- Looking a name up in the all-zero initial dict. -/
theorem dictLookup_init (names : List String) (n : String) :
    dictLookup (names.map (fun x => (x, (0 : ℚ)))) n
      = if n ∈ names then some 0 else none := by
  induction names with
  | nil => simp [dictLookup]
  | cons a rest ih =>
    simp only [List.map_cons, dictLookup]
    by_cases ha : a = n
    · subst ha
      simp
    · have h2 : ¬ n = a := fun h => ha h.symm
      simp [ha, ih, List.mem_cons, h2]

/-- C4: for every budget name present in the target month, the carryover is
the sum over all strictly earlier same-named budget rows of the user of
`-month_amount` for fund rows (their transactions ignored) and the
month-filtered transaction sum for non-fund rows; with no strictly earlier
same-named rows the entry is 0, never an error. -/
theorem c4_carryover (db : DB) (userId month year : Nat) (n : String)
    (hmem : n ∈ (currentBudgets db userId month year).map (fun b => b.name)) :
    dictLookup (get_carryover_for_budgets db userId month year) n
        = some (spec_carryover db userId month year n)
      ∧ (db.budgets.filter (fun b =>
            b.userId == userId && b.name == n
              && monthBefore b.year b.month year month) = [] →
          dictLookup (get_carryover_for_budgets db userId month year) n
            = some 0) := by
  have hmain : dictLookup (get_carryover_for_budgets db userId month year) n
      = some (spec_carryover db userId month year n) := by
    unfold get_carryover_for_budgets
    have hcur : ¬ (currentBudgets db userId month year).isEmpty = true := by
      intro h
      rw [List.isEmpty_iff.mp h] at hmem
      simp at hmem
    rw [if_neg hcur]
    have hn_names : n ∈ ((currentBudgets db userId month year).map
        (fun b => b.name)).dedup := List.mem_dedup.mpr hmem
    have himp : ∀ b : BudgetRow,
        (b.userId == userId && b.name == n
          && monthBefore b.year b.month year month) = true →
        (b.userId == userId
          && ((currentBudgets db userId month year).map
              (fun b => b.name)).dedup.contains b.name
          && monthBefore b.year b.month year month) = true := by
      intro b hb
      simp only [Bool.and_eq_true, beq_iff_eq] at hb
      obtain ⟨⟨hu, hname⟩, hbef⟩ := hb
      simp only [Bool.and_eq_true, beq_iff_eq]
      refine ⟨⟨hu, ?_⟩, hbef⟩
      rw [hname]
      exact List.elem_iff.mpr hn_names
    by_cases hprev : (db.budgets.filter (fun b =>
        b.userId == userId
          && ((currentBudgets db userId month year).map
              (fun b => b.name)).dedup.contains b.name
          && monthBefore b.year b.month year month)).isEmpty = true
    · rw [if_pos hprev, dictLookup_init, if_pos hn_names]
      have hnil := List.isEmpty_iff.mp hprev
      rw [List.filter_eq_nil_iff] at hnil
      have : db.budgets.filter (fun b =>
          b.userId == userId && b.name == n
            && monthBefore b.year b.month year month) = [] := by
        rw [List.filter_eq_nil_iff]
        intro a ha hpa
        exact hnil a ha (himp a hpa)
      unfold spec_carryover
      rw [this]
      simp
    · rw [if_neg hprev, dictLookup_foldAdd, dictLookup_init, if_pos hn_names]
      have hfilter : (db.budgets.filter (fun b =>
            b.userId == userId
              && ((currentBudgets db userId month year).map
                  (fun b => b.name)).dedup.contains b.name
              && monthBefore b.year b.month year month)).filter
            (fun b => b.name == n)
          = db.budgets.filter (fun b =>
              b.userId == userId && b.name == n
                && monthBefore b.year b.month year month) := by
        rw [List.filter_filter]
        apply List.filter_congr
        intro b _
        by_cases hbn : (b.name == n) = true
        · have hb : b.name = n := by simpa using hbn
          have hc : ((currentBudgets db userId month year).map
              (fun b => b.name)).dedup.contains b.name = true := by
            rw [hb]
            exact List.elem_iff.mpr hn_names
          rw [hbn, hc]
          simp
        · have hbn' : (b.name == n) = false := by
            revert hbn; cases (b.name == n) <;> simp
          rw [hbn']
          simp
      rw [hfilter]
      unfold spec_carryover
      simp
  refine ⟨hmain, fun hnil => ?_⟩
  rw [hmain]
  unfold spec_carryover
  rw [hnil]
  simp

/-- Witness for C4 at a concrete database: "Food" exists in 2/2025 with one
prior same-named non-fund row in 1/2025. -/
theorem c4_witness :
    dictLookup (get_carryover_for_budgets dbC4w 1 2 2025) "Food"
      = some (spec_carryover dbC4w 1 2 2025 "Food") :=
  (c4_carryover dbC4w 1 2 2025 "Food" (by with_unfolding_all decide)).1

/-! ## Claim C5 -/

/-- A sum over a disjunctive filter splits into the two disjoint sums. -/
theorem summap_filter_or {α : Type} (g : α → ℚ) (p q : α → Bool) (l : List α)
    (hdisj : ∀ x ∈ l, ¬(p x = true ∧ q x = true)) :
    ((l.filter (fun x => p x || q x)).map g).sum
      = ((l.filter p).map g).sum + ((l.filter q).map g).sum := by
  induction l with
  | nil => simp
  | cons a t ih =>
    have hd : ∀ x ∈ t, ¬(p x = true ∧ q x = true) :=
      fun x hx => hdisj x (List.mem_cons_of_mem a hx)
    by_cases hp : p a = true
    · have hq : q a = false := by
        have hda := hdisj a (List.mem_cons_self a t)
        revert hda; cases q a <;> simp [hp]

      simp only [List.filter_cons, hp, hq, Bool.true_or, if_true,
        Bool.false_eq_true, if_false, List.map_cons, List.sum_cons, ih hd]
      ring
    · have hp' : p a = false := by revert hp; cases p a <;> simp
      by_cases hq : q a = true
      · simp only [List.filter_cons, hp', hq, Bool.false_or, if_true,
          Bool.false_eq_true, if_false, List.map_cons, List.sum_cons, ih hd]
        ring
      · have hq' : q a = false := by revert hq; cases q a <;> simp
        simp only [List.filter_cons, hp', hq', Bool.false_or,
          Bool.false_eq_true, if_false, ih hd]

/-- Repointing every fund of master `src` to master `tgt` (without touching
transactions or line items) makes the recomputed balance of `tgt` the sum of
the two previous recomputed balances. -/
theorem master_balance_repoint (db db2 : DB) (src tgt : Nat) (hne : src ≠ tgt)
    (hfunds : db2.funds = db.funds.map (fun (f : FundRow) =>
      if f.masterFundId == src then { f with masterFundId := tgt } else f))
    (htx : db2.txns = db.txns) (hli : db2.lineItems = db.lineItems) :
    calculate_master_balance db2 tgt
      = calculate_master_balance db tgt + calculate_master_balance db src := by
  have hsum : ∀ bid, get_budget_sum_with_line_items db2 bid
      = get_budget_sum_with_line_items db bid := by
    intro bid
    unfold get_budget_sum_with_line_items
    rw [htx, hli]
  rw [masterBalance_eq_sum, masterBalance_eq_sum, masterBalance_eq_sum]
  unfold fundsOfMaster
  rw [hfunds, List.filter_map, List.map_map]
  have hcongr : List.map
        ((fun f => f.monthAmount + get_budget_sum_with_line_items db2 f.id)
          ∘ (fun (f : FundRow) =>
            if f.masterFundId == src then { f with masterFundId := tgt } else f))
        (db.funds.filter ((fun f => f.masterFundId == tgt)
          ∘ (fun (f : FundRow) =>
            if f.masterFundId == src then { f with masterFundId := tgt } else f)))
      = List.map (fun f => f.monthAmount + get_budget_sum_with_line_items db f.id)
        (db.funds.filter ((fun f => f.masterFundId == tgt)
          ∘ (fun (f : FundRow) =>
            if f.masterFundId == src then { f with masterFundId := tgt } else f))) := by
    apply List.map_congr_left
    intro f _
    by_cases hc : (f.masterFundId == src) = true
    · simp [Function.comp, hc, hsum]
    · simp [Function.comp, hc, hsum]
  rw [hcongr]
  have hfiltc : db.funds.filter ((fun f => f.masterFundId == tgt)
        ∘ (fun (f : FundRow) =>
          if f.masterFundId == src then { f with masterFundId := tgt } else f))
      = db.funds.filter (fun f =>
          f.masterFundId == tgt || f.masterFundId == src) := by
    apply List.filter_congr
    intro f _
    by_cases hc : (f.masterFundId == src) = true
    · have : f.masterFundId = src := by simpa using hc
      simp [Function.comp, hc, this]
    · have hc' : (f.masterFundId == src) = false := by
        revert hc; cases (f.masterFundId == src) <;> simp
      simp [Function.comp, hc']
  rw [hfiltc]
  apply summap_filter_or
  intro f _ hconj
  have h1 : f.masterFundId = tgt := by simpa using hconj.1
  have h2 : f.masterFundId = src := by simpa using hconj.2
  exact hne (h2 ▸ h1)

/-- C5: under the preconditions (both funds found by the join, masters
differ), `combine_fund_masters` repoints every Fund row of the source
master to the target master, deletes the source master row, and conserves
the recomputed balance: the target's new recomputed balance is the sum of
the two previous recomputed balances.  When a precondition fails a domain
error (`ValueError`) is raised instead. -/
theorem c5_combine (db : DB) (s t : Nat) :
    (fundJoin db s = none →
      combine_fund_masters db s t = Except.error "Source fund not found")
    ∧ (∀ x, fundJoin db s = some x → fundJoin db t = none →
      combine_fund_masters db s t = Except.error "Target fund not found")
    ∧ (∀ sf sm sb tf tm tb, fundJoin db s = some (sf, sm, sb) →
        fundJoin db t = some (tf, tm, tb) → sf.masterFundId = tf.masterFundId →
        combine_fund_masters db s t
          = Except.error "Funds are already in the same master fund family")
    ∧ ∀ sf sm sb tf tm tb, fundJoin db s = some (sf, sm, sb) →
        fundJoin db t = some (tf, tm, tb) → sf.masterFundId ≠ tf.masterFundId →
        ∃ db' info, combine_fund_masters db s t = Except.ok (db', info)
          ∧ (∀ f ∈ db.funds, f.masterFundId = sf.masterFundId →
              { f with masterFundId := tf.masterFundId } ∈ db'.funds)
          ∧ (∀ f ∈ db'.funds, f.masterFundId ≠ sf.masterFundId)
          ∧ (∀ m ∈ db'.masters, m.id ≠ sf.masterFundId)
          ∧ calculate_master_balance db' tf.masterFundId
              = calculate_master_balance db tf.masterFundId
                + calculate_master_balance db sf.masterFundId := by
  refine ⟨?_, ?_, ?_, ?_⟩
  · intro hs
    unfold combine_fund_masters
    rw [hs]
  · rintro ⟨sf, sm, sb⟩ hs ht
    unfold combine_fund_masters
    rw [hs, ht]
  · intro sf sm sb tf tm tb hs ht heq
    simp only [combine_fund_masters, hs, ht]
    rw [if_pos (show (sf.masterFundId == tf.masterFundId) = true by simp [heq])]
  · intro sf sm sb tf tm tb hs ht hne
    have hbeq : (sf.masterFundId == tf.masterFundId) = false := by
      simpa using hne
    simp only [combine_fund_masters, hs, ht, hbeq, Bool.false_eq_true, if_false]
    refine ⟨_, _, rfl, ?_, ?_, ?_, ?_⟩
    · intro f hf hfm
      simp only [updateMasterTotal, List.mem_map]
      exact ⟨f, hf, by simp [hfm]⟩
    · intro f hf
      simp only [updateMasterTotal, List.mem_map] at hf
      obtain ⟨f0, _, rfl⟩ := hf
      by_cases h0 : (f0.masterFundId == sf.masterFundId) = true
      · simp only [h0, if_true]
        show tf.masterFundId ≠ sf.masterFundId
        exact fun h => hne h.symm
      · simp only [h0, Bool.false_eq_true, if_false]
        simpa using h0
    · intro m hm
      simp only [updateMasterTotal, List.mem_filter] at hm
      simpa using hm.2
    · exact master_balance_repoint db _ sf.masterFundId tf.masterFundId
        hne rfl rfl rfl

/-- Witness for C5: combining fund 1 (master 1, balance 10) into fund 2
(master 2, balance 7) conserves the recomputed balance. -/
theorem c5_witness :
    (combine_fund_masters dbC5w 1 2).toOption.map
        (fun p => calculate_master_balance p.1 2)
      = some (calculate_master_balance dbC5w 2 + calculate_master_balance dbC5w 1) := by
  obtain ⟨db', info, hok, -, -, -, hbal⟩ :=
    (c5_combine dbC5w 1 2).2.2.2
      ⟨1, 1, 0, 10, none, 1⟩ ⟨1, none, 10⟩ ⟨1, "A", 1, 1, 2025, true, false⟩
      ⟨2, 1, 0, 7, none, 2⟩ ⟨2, none, 7⟩ ⟨2, "B", 1, 1, 2025, true, false⟩
      rfl rfl (by decide)
  rw [hok]
  show some (calculate_master_balance db' 2) = _
  rw [hbal]

/-! ## Claim C6 -/

/-- A successful `find?` on a prefix also succeeds on the whole list. -/
theorem find?_append_of_some {α : Type} (p : α → Bool) (l1 l2 : List α) (x : α)
    (h : l1.find? p = some x) : (l1 ++ l2).find? p = some x := by
  induction l1 with
  | nil => simp [List.find?] at h
  | cons a t ih =>
    rw [List.cons_append]
    by_cases ha : p a = true
    · rw [List.find?_cons_of_pos _ ha] at h
      rw [List.find?_cons_of_pos _ ha]
      exact h
    · rw [List.find?_cons_of_neg _ ha] at h
      rw [List.find?_cons_of_neg _ ha]
      exact ih h

/-- Each copy step only appends to the fund table. -/
theorem copyStep_funds_prefix (tm ty uid : Nat) (st : CopyState) (row : CopyRow) :
    ∃ rest, (copyStep tm ty uid st row).db.funds = st.db.funds ++ rest := by
  unfold copyStep
  split
  · exact ⟨[], by simp⟩
  · split
    · exact ⟨[], by simp⟩
    · split
      · dsimp only
        split
        · exact ⟨_, rfl⟩
        · exact ⟨[], by simp⟩
      · exact ⟨[], by simp⟩

/-- Each copy step only appends to the budget table. -/
theorem copyStep_budgets_prefix (tm ty uid : Nat) (st : CopyState) (row : CopyRow) :
    ∃ rest, (copyStep tm ty uid st row).db.budgets = st.db.budgets ++ rest := by
  unfold copyStep
  split
  · exact ⟨_, rfl⟩
  · split
    · exact ⟨_, rfl⟩
    · split
      · dsimp only
        split
        · exact ⟨_, rfl⟩
        · exact ⟨_, rfl⟩
      · exact ⟨_, rfl⟩

/-- Fund rows survive the copy fold. -/
theorem copyFold_funds_mono (tm ty uid : Nat) (rows : List CopyRow) :
    ∀ (st : CopyState) (x : FundRow), x ∈ st.db.funds →
      x ∈ (rows.foldl (copyStep tm ty uid) st).db.funds := by
  induction rows with
  | nil => intro st x hx; simpa using hx
  | cons r rest ih =>
    intro st x hx
    rw [List.foldl_cons]
    apply ih
    obtain ⟨more, hm⟩ := copyStep_funds_prefix tm ty uid st r
    rw [hm]
    exact List.mem_append_left _ hx

/-- Budget rows survive the copy fold. -/
theorem copyFold_budgets_mono (tm ty uid : Nat) (rows : List CopyRow) :
    ∀ (st : CopyState) (x : BudgetRow), x ∈ st.db.budgets →
      x ∈ (rows.foldl (copyStep tm ty uid) st).db.budgets := by
  induction rows with
  | nil => intro st x hx; simpa using hx
  | cons r rest ih =>
    intro st x hx
    rw [List.foldl_cons]
    apply ih
    obtain ⟨more, hm⟩ := copyStep_budgets_prefix tm ty uid st r
    rw [hm]
    exact List.mem_append_left _ hx

/-- The copy step on any row inserts the target-month budget row with the
source row's name/enable/deleted flags and a fresh id. -/
theorem copyStep_budget_mem (tm ty uid : Nat) (st : CopyState) (row : CopyRow) :
    (⟨st.db.nextBudgetId, row.budget.name, uid, tm, ty, row.budget.enable,
        row.budget.deleted⟩ : BudgetRow) ∈ (copyStep tm ty uid st row).db.budgets := by
  unfold copyStep
  split
  · exact List.mem_append_right _ (List.mem_singleton.mpr rfl)
  · split
    · exact List.mem_append_right _ (List.mem_singleton.mpr rfl)
    · split
      · dsimp only
        split
        · exact List.mem_append_right _ (List.mem_singleton.mpr rfl)
        · exact List.mem_append_right _ (List.mem_singleton.mpr rfl)
      · exact List.mem_append_right _ (List.mem_singleton.mpr rfl)

/-- Folding the copy over rows that contain a fund-only row (whose source
fund row is found in the prefix `db0funds` of the threaded fund table)
creates the target budget row and the fund row with the same
priority/increment/max, zero month amount and the same master. -/
theorem copyFold_creates (tm ty uid : Nat) (db0funds : List FundRow)
    (rows : List CopyRow) :
    ∀ st : CopyState, (∃ rest, st.db.funds = db0funds ++ rest) →
      ∀ row ∈ rows, row.income = none → row.expense = none →
      ∀ f, row.fund = some f →
      db0funds.find? (fun x => x.id == f.id) = some f →
      ∃ nid, (⟨nid, row.budget.name, uid, tm, ty, row.budget.enable,
            row.budget.deleted⟩ : BudgetRow)
          ∈ (rows.foldl (copyStep tm ty uid) st).db.budgets
        ∧ (⟨nid, f.priority, f.increment, 0, f.maxAmt, f.masterFundId⟩ : FundRow)
          ∈ (rows.foldl (copyStep tm ty uid) st).db.funds := by
  induction rows with
  | nil =>
    intro st _ row hrow
    simp at hrow
  | cons r rest ih =>
    intro st hpre row hrow hinc hexp f hf hfind
    rcases List.mem_cons.mp hrow with heq | hmem
    · subst heq
      obtain ⟨pre, hpre⟩ := hpre
      have hfind1 : st.db.funds.find? (fun x => x.id == f.id) = some f := by
        rw [hpre]
        exact find?_append_of_some _ _ _ _ hfind
      refine ⟨st.db.nextBudgetId, ?_, ?_⟩
      · rw [List.foldl_cons]
        exact copyFold_budgets_mono tm ty uid rest _ _
          (copyStep_budget_mem tm ty uid st row)
      · rw [List.foldl_cons]
        apply copyFold_funds_mono tm ty uid rest
        show _ ∈ (copyStep tm ty uid st row).db.funds
        simp only [copyStep, hinc, hexp, hf, hfind1]
        exact List.mem_append_right _ (List.mem_singleton.mpr rfl)
    · rw [List.foldl_cons]
      apply ih (copyStep tm ty uid st r) ?_ row hmem hinc hexp f hf hfind
      obtain ⟨pre, hpre⟩ := hpre
      obtain ⟨more, hm⟩ := copyStep_funds_prefix tm ty uid st r
      exact ⟨pre ++ more, by rw [hm, hpre, List.append_assoc]⟩

/-- C6: for every fund-only budget of the source month (its id has a Fund
row but no Income or Expense row), a successful copy creates in the target
month a Budget row with the same name/enable/deleted and a Fund row with
the same priority, increment and max, `month_amount = 0` and the same
`master_fund_id` as the source fund. -/
theorem c6_copy_fund (db : DB) (uid tm ty sm sy : Nat) (db' : DB)
    (counts : CopyCounts)
    (hok : copy_budgets_from_previous_month db uid tm ty sm sy
      = Except.ok (db', counts))
    (b : BudgetRow) (hb : b ∈ db.budgets)
    (hbu : b.userId = uid) (hbm : b.month = sm) (hby : b.year = sy)
    (hinc : db.incomes.find? (fun i => i.id == b.id) = none)
    (hexp : db.expenses.find? (fun e => e.id == b.id) = none)
    (f : FundRow) (hf : db.funds.find? (fun x => x.id == b.id) = some f) :
    ∃ nid, (⟨nid, b.name, uid, tm, ty, b.enable, b.deleted⟩ : BudgetRow) ∈ db'.budgets
      ∧ (⟨nid, f.priority, f.increment, 0, f.maxAmt, f.masterFundId⟩ : FundRow)
        ∈ db'.funds := by
  unfold copy_budgets_from_previous_month at hok
  split at hok
  · exact absurd hok (by simp)
  · split at hok
    · exact absurd hok (by simp)
    · rw [Except.ok.injEq, Prod.mk.injEq] at hok
      obtain ⟨hdb, -⟩ := hok
      have hid : f.id = b.id := by
        have := List.find?_some hf
        simpa using this
      have hfind : db.funds.find? (fun x => x.id == f.id) = some f := by
        have hpred : (fun (x : FundRow) => x.id == f.id)
            = (fun (x : FundRow) => x.id == b.id) := by
          funext x
          rw [hid]
        rw [hpred]
        exact hf
      have hrow : (⟨b, none, none, some f⟩ : CopyRow)
          ∈ copySnapshot db uid sm sy := by
        unfold copySnapshot
        rw [List.mem_map]
        refine ⟨b, ?_, ?_⟩
        · rw [List.mem_filter]
          refine ⟨hb, ?_⟩
          simp [hbu, hbm, hby]
        · rw [hinc, hexp, hf]
      obtain ⟨nid, h1, h2⟩ := copyFold_creates tm ty uid db.funds
        (copySnapshot db uid sm sy)
        { db := db, counts := { income := 0, expense := 0, flexible := 0, fund := 0 } }
        ⟨[], by simp⟩ ⟨b, none, none, some f⟩ hrow rfl rfl f rfl hfind
      exact ⟨nid, hdb ▸ h1, hdb ▸ h2⟩

/-- Witness for C6 at `dbC6w`: copying 1/2025 into 2/2025 creates the new
"Savings" budget and its fund row (month_amount 0, same master). -/
theorem c6_witness :
    ∃ nid, (⟨nid, "Savings", 1, 2, 2025, true, false⟩ : BudgetRow) ∈ dbC6res.budgets
      ∧ (⟨nid, 2, 50, 0, none, 1⟩ : FundRow) ∈ dbC6res.funds :=
  c6_copy_fund dbC6w 1 2 2025 1 2025 dbC6res ⟨0, 0, 0, 1⟩
    (by with_unfolding_all rfl)
    ⟨1, "Savings", 1, 1, 2025, true, false⟩ (by decide) rfl rfl rfl rfl rfl
    ⟨1, 2, 50, 5, none, 1⟩ rfl

/-! ## Claim C3 -/

/-- `find?` is the head of the filtered list. -/
theorem find?_eq_head?_filter {α : Type} (p : α → Bool) (l : List α) :
    l.find? p = (l.filter p).head? := by
  induction l with
  | nil => rfl
  | cons a t ih =>
    by_cases ha : p a = true
    · rw [List.find?_cons_of_pos _ ha, List.filter_cons, if_pos ha]
      rfl
    · have ha' : p a = false := by revert ha; cases p a <;> simp
      rw [List.find?_cons_of_neg _ (by simp [ha']), List.filter_cons, ha']
      simp only [Bool.false_eq_true, if_false]
      exact ih

/-- With pairwise-distinct ids, at most one fund row matches an id filter. -/
theorem filter_id_len_le_one (fid : Nat) :
    ∀ l : List FundRow, (l.map (fun f => f.id)).Nodup →
      (l.filter (fun f => f.id == fid)).length ≤ 1 := by
  intro l
  induction l with
  | nil => intro _; simp
  | cons a t ih =>
    intro h
    rw [List.map_cons, List.nodup_cons] at h
    obtain ⟨hna, ht⟩ := h
    by_cases pa : (a.id == fid) = true
    · have hnil : t.filter (fun f => f.id == fid) = [] := by
        rw [List.filter_eq_nil_iff]
        intro x hx hpx
        apply hna
        rw [List.mem_map]
        refine ⟨x, hx, ?_⟩
        have h1 : a.id = fid := by simpa using pa
        have h2 : x.id = fid := by simpa using hpx
        rw [h2, h1]
      rw [List.filter_cons, if_pos pa, hnil]
      simp
    · rw [List.filter_cons, if_neg pa]
      exact ih ht

/-- `find?` by primary key is invariant under reordering the rows. -/
theorem find?_perm_of_unique (l1 l2 : List FundRow) (hperm : l1.Perm l2)
    (hnodup : (l1.map (fun f => f.id)).Nodup) (fid : Nat) :
    l1.find? (fun f => f.id == fid) = l2.find? (fun f => f.id == fid) := by
  rw [find?_eq_head?_filter, find?_eq_head?_filter]
  have hflt : (l1.filter (fun f => f.id == fid)).Perm
      (l2.filter (fun f => f.id == fid)) := hperm.filter _
  have hlen := filter_id_len_le_one fid l1 hnodup
  cases hc : l1.filter (fun f => f.id == fid) with
  | nil =>
    rw [hc] at hflt
    rw [List.nil_perm] at hflt
    rw [hflt]
  | cons x xs =>
    rw [hc] at hflt hlen
    cases xs with
    | nil =>
      rw [List.perm_comm] at hflt
      rw [List.perm_singleton] at hflt
      rw [hflt]
    | cons y ys => simp at hlen

/-- A `filterMap` that preserves ids keeps id-nodupness. -/
theorem filterMap_ids_nodup {α β : Type} (g : α → Option β)
    (ida : α → Nat) (idb : β → Nat)
    (hg : ∀ a b, g a = some b → idb b = ida a) :
    ∀ l : List α, (l.map ida).Nodup → ((l.filterMap g).map idb).Nodup := by
  intro l
  induction l with
  | nil => intro _; simp
  | cons a t ih =>
    intro h
    rw [List.map_cons, List.nodup_cons] at h
    obtain ⟨hna, ht⟩ := h
    rw [List.filterMap_cons]
    cases hga : g a with
    | none => exact ih ht
    | some b =>
      rw [List.map_cons, List.nodup_cons]
      refine ⟨?_, ih ht⟩
      intro hmem
      rw [List.mem_map] at hmem
      obtain ⟨b', hb', hid⟩ := hmem
      rw [List.mem_filterMap] at hb'
      obtain ⟨a', ha', hga'⟩ := hb'
      apply hna
      rw [List.mem_map]
      exact ⟨a', ha', by rw [← hg a' b' hga', hid, hg a b hga]⟩

/-- Two sorted lists of snapshots with pairwise-distinct ids and the same
elements coincide. -/
theorem sorted_unique_of_nodup_ids :
    ∀ (l1 l2 : List FundSnapshot), l1.Perm l2 →
      List.Sorted fundLe l1 → List.Sorted fundLe l2 →
      (l1.map (fun s => s.id)).Nodup → l1 = l2 := by
  intro l1
  induction l1 with
  | nil =>
    intro l2 hperm _ _ _
    rw [List.nil_perm] at hperm
    rw [hperm]
  | cons a t1 ih =>
    intro l2 hperm hs1 hs2 hnd
    cases l2 with
    | nil => exact absurd (List.perm_nil.mp hperm) (by simp)
    | cons b t2 =>
      rw [List.sorted_cons] at hs1 hs2
      have hab : a = b := by
        by_contra hne
        have ha2 : a ∈ b :: t2 := hperm.mem_iff.mp (List.mem_cons_self a t1)
        have hb1 : b ∈ a :: t1 := hperm.mem_iff.mpr (List.mem_cons_self b t2)
        have hba : fundLe b a := by
          rcases List.mem_cons.mp ha2 with h | h
          · exact absurd h.symm (fun hh => hne hh.symm)
          · exact hs2.1 a h
        have hab2 : fundLe a b := by
          rcases List.mem_cons.mp hb1 with h | h
          · exact absurd h (fun hh => hne hh.symm)
          · exact hs1.1 b h
        have hid : a.id = b.id := by
          unfold fundLe at hba hab2
          omega
        have hbt1 : b ∈ t1 := by
          rcases List.mem_cons.mp hb1 with h | h
          · exact absurd h (fun hh => hne hh.symm)
          · exact h
        rw [List.map_cons, List.nodup_cons] at hnd
        apply hnd.1
        rw [List.mem_map]
        exact ⟨b, hbt1, hid.symm⟩
      subst hab
      have htp : t1.Perm t2 := hperm.cons_inv
      rw [List.map_cons, List.nodup_cons] at hnd
      rw [ih t2 htp hs1.2 hs2.2 hnd.2]

/-- The recomputed master balance only depends on the fund-row multiset and
the transaction tables. -/
theorem master_balance_perm (dbA dbB : DB) (hp : dbA.funds.Perm dbB.funds)
    (ht : dbA.txns = dbB.txns) (hl : dbA.lineItems = dbB.lineItems) (mid : Nat) :
    calculate_master_balance dbA mid = calculate_master_balance dbB mid := by
  rw [masterBalance_eq_sum, masterBalance_eq_sum]
  have hg : (fun f : FundRow => f.monthAmount + get_budget_sum_with_line_items dbA f.id)
      = (fun f : FundRow => f.monthAmount + get_budget_sum_with_line_items dbB f.id) := by
    funext f
    unfold get_budget_sum_with_line_items
    rw [ht, hl]
  rw [hg]
  exact List.Perm.sum_eq ((hp.filter _).map _)

/-- The `calculate_fund_balance` join is order-invariant under the primary
key. -/
theorem fundJoin_rel (dbA dbB : DB) (hb : dbA.budgets = dbB.budgets)
    (hp : dbA.funds.Perm dbB.funds) (hm : dbA.masters = dbB.masters)
    (hn : (dbA.funds.map (fun f => f.id)).Nodup) (fid : Nat) :
    fundJoin dbA fid = fundJoin dbB fid := by
  unfold fundJoin
  rw [find?_perm_of_unique dbA.funds dbB.funds hp hn fid, hb, hm]

/-- The `master_balance` field of `calculate_fund_balance` is invariant
under reordering the fund rows. -/
theorem cfb_master_balance_rel (dbA dbB : DB) (hb : dbA.budgets = dbB.budgets)
    (hp : dbA.funds.Perm dbB.funds) (hm : dbA.masters = dbB.masters)
    (ht : dbA.txns = dbB.txns) (hl : dbA.lineItems = dbB.lineItems)
    (hn : (dbA.funds.map (fun f => f.id)).Nodup) (fid : Nat) :
    (calculate_fund_balance dbA fid).master_balance
      = (calculate_fund_balance dbB fid).master_balance := by
  unfold calculate_fund_balance
  rw [fundJoin_rel dbA dbB hb hp hm hn fid]
  cases h : fundJoin dbB fid with
  | none => rfl
  | some x =>
    obtain ⟨f, m, b⟩ := x
    exact master_balance_perm dbA dbB hp ht hl f.masterFundId

/-- The month snapshot fetch keeps ids pairwise distinct. -/
theorem monthFundSnapshots_ids_nodup (db : DB) (uid month year : Nat)
    (hn : (db.funds.map (fun f => f.id)).Nodup) :
    ((monthFundSnapshots db uid month year).map (fun s => s.id)).Nodup := by
  unfold monthFundSnapshots
  refine filterMap_ids_nodup _ (fun (f : FundRow) => f.id)
    (fun (s : FundSnapshot) => s.id) ?_ db.funds hn
  intro f s hfs
  cases hb : db.budgets.find? (fun b => b.id == f.id) with
  | none => rw [hb] at hfs; exact absurd hfs (by simp)
  | some b =>
    rw [hb] at hfs
    dsimp only at hfs
    by_cases hc : (b.userId == uid && b.month == month && b.year == year
        && b.enable) = true
    · rw [if_pos hc] at hfs
      rw [← Option.some_inj.mp hfs]
    · rw [if_neg hc] at hfs
      exact absurd hfs (by simp)

/-- The commit part of the allocator loop preserves the fetch-order
relation. -/
theorem applyCommit_rel (s1 s2 : ApplyState) (hrel : StateRel s1 s2)
    (fund : FundSnapshot) (amt : ℚ) :
    StateRel (applyCommit s1 fund amt) (applyCommit s2 fund amt) := by
  unfold StateRel at hrel
  obtain ⟨hb, hp, hm, ht, hl, hn, ha, hs, hta, hr⟩ := hrel
  simp only [StateRel, applyCommit, updateFundMonthAmount, updateMasterTotal,
    masterTotalAmount]
  refine ⟨hb, hp.map _, by rw [hm], ht, hl, ?_, ?_, hs, by rw [hta], by rw [hr]⟩
  · rw [List.map_map]
    have hcmp : ((fun f : FundRow => f.id) ∘ (fun f : FundRow =>
        if f.id == fund.id then { f with monthAmount := f.monthAmount + amt } else f))
        = fun f : FundRow => f.id := by
      funext x
      by_cases hx : (x.id == fund.id) = true <;> simp [Function.comp, hx]
    rw [hcmp]
    exact hn
  · rw [ha, hm]

/-- The safe-mode clamp preserves the fetch-order relation. -/
theorem applySafeCheck_rel (safe : Bool) (s1 s2 : ApplyState)
    (hrel : StateRel s1 s2) (fund : FundSnapshot) (amt : ℚ) :
    StateRel (applySafeCheck safe s1 fund amt) (applySafeCheck safe s2 fund amt) := by
  have hrel' := hrel
  unfold StateRel at hrel
  obtain ⟨hb, hp, hm, ht, hl, hn, ha, hs, hta, hr⟩ := hrel
  simp only [applySafeCheck]
  rw [show s2.remaining = s1.remaining from hr.symm]
  by_cases hc : (safe && decide (s1.remaining - amt < 0)) = true
  · rw [if_pos hc, if_pos hc]
    by_cases hz : (max 0 s1.remaining == 0) = true
    · rw [if_pos hz, if_pos hz]
      refine ⟨hb, hp, hm, ht, hl, hn, ha, ?_, hta, rfl⟩
      show s1.skipped ++ _ = s2.skipped ++ _
      rw [hs]
    · rw [if_neg hz, if_neg hz]
      exact applyCommit_rel s1 s2 hrel' fund (max 0 s1.remaining)
  · rw [if_neg hc, if_neg hc]
    exact applyCommit_rel s1 s2 hrel' fund amt

/-- One allocator iteration preserves the fetch-order relation. -/
theorem applyStep_rel (safe : Bool) (s1 s2 : ApplyState)
    (hrel : StateRel s1 s2) (fund : FundSnapshot) :
    StateRel (applyStep safe s1 fund) (applyStep safe s2 fund) := by
  have hrel' := hrel
  unfold StateRel at hrel
  obtain ⟨hb, hp, hm, ht, hl, hn, ha, hs, hta, hr⟩ := hrel
  simp only [applyStep]
  by_cases hz : (fund.increment == 0) = true
  · rw [if_pos hz, if_pos hz]
    refine ⟨hb, hp, hm, ht, hl, hn, ha, ?_, hta, hr⟩
    show s1.skipped ++ _ = s2.skipped ++ _
    rw [hs]
  · rw [if_neg hz, if_neg hz]
    cases hM : fund.maxAmt with
    | none => exact applySafeCheck_rel safe s1 s2 hrel' fund fund.increment
    | some mx =>
      dsimp only
      rw [show (calculate_fund_balance s2.db fund.id).master_balance
          = (calculate_fund_balance s1.db fund.id).master_balance from
        (cfb_master_balance_rel s1.db s2.db hb hp hm ht hl hn fund.id).symm]
      by_cases hroom : mx - (calculate_fund_balance s1.db fund.id).master_balance ≤ 0
      · rw [if_pos hroom, if_pos hroom]
        refine ⟨hb, hp, hm, ht, hl, hn, ha, ?_, hta, hr⟩
        show s1.skipped ++ _ = s2.skipped ++ _
        rw [hs]
      · rw [if_neg hroom, if_neg hroom]
        exact applySafeCheck_rel safe s1 s2 hrel' fund
          (min fund.increment
            (mx - (calculate_fund_balance s1.db fund.id).master_balance))

/-- The whole allocator fold preserves the fetch-order relation. -/
theorem foldSteps_rel (safe : Bool) (snaps : List FundSnapshot) :
    ∀ s1 s2 : ApplyState, StateRel s1 s2 →
      StateRel (snaps.foldl (applyStep safe) s1) (snaps.foldl (applyStep safe) s2) := by
  induction snaps with
  | nil => intro s1 s2 h; simpa using h
  | cons a t ih =>
    intro s1 s2 h
    rw [List.foldl_cons, List.foldl_cons]
    exact ih _ _ (applyStep_rel safe s1 s2 h a)

/-- The allocator loop gives identical results on databases that differ only
in fund-row fetch order. -/
theorem core_rel (safe : Bool) (dbA dbB : DB) (bal : ℚ)
    (snaps : List FundSnapshot)
    (hb : dbA.budgets = dbB.budgets) (hp : dbA.funds.Perm dbB.funds)
    (hm : dbA.masters = dbB.masters) (ht : dbA.txns = dbB.txns)
    (hl : dbA.lineItems = dbB.lineItems)
    (hn : (dbA.funds.map (fun f => f.id)).Nodup) :
    apply_fund_increments_core safe dbA bal snaps
      = apply_fund_increments_core safe dbB bal snaps := by
  have h := foldSteps_rel safe snaps
    { db := dbA, applied := [], skipped := [], totalApplied := 0, remaining := bal }
    { db := dbB, applied := [], skipped := [], totalApplied := 0, remaining := bal }
    ⟨hb, hp, hm, ht, hl, hn, rfl, rfl, rfl, rfl⟩
  obtain ⟨-, -, -, -, -, -, ha, hs, hta, hr⟩ := h
  simp only [apply_fund_increments_core]
  rw [ha, hs, hta, hr]

/-- C3: the allocator fetches the month's enabled funds sorted by
`(priority asc, id asc)`, and is deterministic: permuting the stored order
of the fund table (with ids unique, as the primary key guarantees) changes
neither the applied list, the skipped list, nor any balance of the
result. -/
theorem c3_allocator_order_determinism (db : DB) (l2 : List FundRow)
    (uid month year : Nat) (safe : Bool) (bal : ℚ)
    (hperm : db.funds.Perm l2)
    (hnodup : (db.funds.map (fun f => f.id)).Nodup) :
    List.Sorted fundLe (sortedMonthFunds db uid month year)
      ∧ apply_fund_increments db uid month year safe bal
        = apply_fund_increments { db with funds := l2 } uid month year safe bal := by
  constructor
  · exact List.sorted_insertionSort fundLe _
  · have hsnap : (monthFundSnapshots db uid month year).Perm
        (monthFundSnapshots { db with funds := l2 } uid month year) :=
      List.Perm.filterMap _ hperm
    have hsorted_eq : sortedMonthFunds db uid month year
        = sortedMonthFunds { db with funds := l2 } uid month year := by
      apply sorted_unique_of_nodup_ids
      · exact (List.perm_insertionSort fundLe _).trans
          (hsnap.trans (List.perm_insertionSort fundLe _).symm)
      · exact List.sorted_insertionSort fundLe _
      · exact List.sorted_insertionSort fundLe _
      · exact ((List.perm_insertionSort fundLe _).map _).nodup_iff.mpr
          (monthFundSnapshots_ids_nodup db uid month year hnodup)
    unfold apply_fund_increments
    rw [← hsorted_eq]
    exact core_rel safe db { db with funds := l2 } bal _ rfl hperm rfl rfl rfl hnodup

/-- Witness for C3: reversing the stored order of `dbC2`'s two funds leaves
the safe-mode allocation result unchanged, and the processed order is
sorted. -/
theorem c3_witness :
    List.Sorted fundLe (sortedMonthFunds dbC2 1 1 2025)
      ∧ apply_fund_increments dbC2 1 1 2025 true 10
        = apply_fund_increments
          { dbC2 with funds := [⟨2, 2, 8, 0, none, 1⟩, ⟨1, 1, 8, 0, none, 1⟩] }
          1 1 2025 true 10 :=
  c3_allocator_order_determinism dbC2 [⟨2, 2, 8, 0, none, 1⟩, ⟨1, 1, 8, 0, none, 1⟩]
    1 1 2025 true 10 (by decide) (by decide)

end BudgetApp
